import Mathlib

/-!
Shallow embedding of two mbed-os HAL drivers:

* `targets/TARGET_NXP/TARGET_LPC15XX/can_api.c` — C_CAN controller driver
  (bit-timing solver, message-object transfer engine, interrupt dispatch);
* `targets/TARGET_NUVOTON/TARGET_M2354/rtc_api.c` — epoch-translating RTC
  driver with a secure/non-secure entry-point split.

Machine integers are modelled as `Nat` (registers) or `Int` (C signed
values), with masking written out exactly where the C source masks.
Memory-mapped hardware registers become fields of an explicit state
record; a C function that reads/writes registers becomes a Lean function
from the state to a (result, new state) pair.
-/

namespace CanApi

/-! ### Constants from can_api.c -/

def RX_MSG_OBJ_COUNT : Nat := 31
def TX_MSG_OBJ_COUNT : Nat := 1
def DLC_MAX : Nat := 8

def ID_STD_MASK : Nat := 0x07FF
def ID_EXT_MASK : Nat := 0x1FFFFFFF

def CANIFn_ARB2_DIR : Nat := 1 <<< 13
def CANIFn_ARB2_XTD : Nat := 1 <<< 14
def CANIFn_ARB2_MSGVAL : Nat := 1 <<< 15
def CANIFn_MSK2_MXTD : Nat := 1 <<< 15
def CANIFn_MSK2_MDIR : Nat := 1 <<< 14
def CANIFn_MCTRL_EOB : Nat := 1 <<< 7
def CANIFn_MCTRL_TXRQST : Nat := 1 <<< 8
def CANIFn_MCTRL_UMASK : Nat := 1 <<< 12
def CANIFn_CMDMSK_DATA_B : Nat := 1 <<< 0
def CANIFn_CMDMSK_DATA_A : Nat := 1 <<< 1
def CANIFn_CMDMSK_TXRQST : Nat := 1 <<< 2
def CANIFn_CMDMSK_NEWDAT : Nat := 1 <<< 2
def CANIFn_CMDMSK_CLRINTPND : Nat := 1 <<< 3
def CANIFn_CMDMSK_CTRL : Nat := 1 <<< 4
def CANIFn_CMDMSK_ARB : Nat := 1 <<< 5
def CANIFn_CMDMSK_MASK : Nat := 1 <<< 6
def CANIFn_CMDMSK_WR : Nat := 1 <<< 7
def CANIFn_CMDMSK_RD : Nat := 0 <<< 7

def CANSTAT_TXOK : Nat := 1 <<< 3
def CANSTAT_RXOK : Nat := 1 <<< 4
def CANSTAT_EPASS : Nat := 1 <<< 5
def CANSTAT_EWARN : Nat := 1 <<< 6
def CANSTAT_BOFF : Nat := 1 <<< 7

def IRQ_ENABLE_TX : Nat := 1 <<< 0
def IRQ_ENABLE_RX : Nat := 1 <<< 1
def IRQ_ENABLE_EW : Nat := 1 <<< 2
def IRQ_ENABLE_EP : Nat := 1 <<< 3
def IRQ_ENABLE_BE : Nat := 1 <<< 4
def IRQ_ENABLE_STATUS : Nat := IRQ_ENABLE_TX ||| IRQ_ENABLE_RX
def IRQ_ENABLE_ERROR : Nat := IRQ_ENABLE_EW ||| IRQ_ENABLE_EP ||| IRQ_ENABLE_BE
def IRQ_ENABLE_ANY : Nat := IRQ_ENABLE_STATUS ||| IRQ_ENABLE_ERROR

/-- 32-bit complement used for C `x & ~mask` on 32-bit registers. -/
def not32 (mask : Nat) : Nat := (2 ^ 32 - 1) ^^^ mask

/-! ### Bit-timing solver (`timing_pts`, `can_speed`) -/

/-- The 23-entry (TSEG1, TSEG2) table from can_api.c, sample points as
close to 75% as possible; entry `i` corresponds to a total bit-quantum
count of `i + 2`. -/
def timing_pts : List (Nat × Nat) :=
  [(0x0, 0x0),      -- 2,  50%
   (0x1, 0x0),      -- 3,  67%
   (0x2, 0x0),      -- 4,  75%
   (0x3, 0x0),      -- 5,  80%
   (0x3, 0x1),      -- 6,  67%
   (0x4, 0x1),      -- 7,  71%
   (0x5, 0x1),      -- 8,  75%
   (0x6, 0x1),      -- 9,  78%
   (0x6, 0x2),      -- 10, 70%
   (0x7, 0x2),      -- 11, 73%
   (0x8, 0x2),      -- 12, 75%
   (0x9, 0x2),      -- 13, 77%
   (0x9, 0x3),      -- 14, 71%
   (0xA, 0x3),      -- 15, 73%
   (0xB, 0x3),      -- 16, 75%
   (0xC, 0x3),      -- 17, 76%
   (0xD, 0x3),      -- 18, 78%
   (0xD, 0x4),      -- 19, 74%
   (0xE, 0x4),      -- 20, 75%
   (0xF, 0x4),      -- 21, 76%
   (0xF, 0x5),      -- 22, 73%
   (0xF, 0x6),      -- 23, 70%
   (0xF, 0x7)]      -- 24, 67%

/-- Inner `for (bits = 22; bits > 0; bits--)` loop of `can_speed`:
scan `bits` downward from the first argument, returning the first
`bits > 0` with `(bits + 3) * (brp + 1) == bitwidth`. -/
def scanBits (bitwidth brp : Nat) : Nat → Option Nat
  | 0 => none
  | bits + 1 =>
    if (bits + 1 + 3) * (brp + 1) = bitwidth then some (bits + 1)
    else scanBits bitwidth brp bits

/-- Outer `while ((!hit) && (brp < bitwidth / 4))` loop of `can_speed`.
`brp` is declared `uint16_t` in the source, so `brp++` wraps modulo
2^16.  The loop state is exactly the stored `brp < 2^16`; after 2^16
iterations without an exit every residue has been condition-checked and
scanned, the state repeats, and the C loop therefore runs forever.
`fuel` counts the iterations still allowed; callers pass 2^16, so the
three outcomes are: `some (some (brp, bits))` — the loop exits on a hit
at (wrapped) prescaler `brp`; `some none` — the loop exits with
`hit == 0`; `none` — a full 2^16-iteration cycle happened with no exit,
i.e. the C loop never terminates.  The inner `calcbit` uses `brp + 1`
after integer promotion, without wrapping. -/
def searchBrp (bitwidth : Nat) (brp : Nat) : Nat → Option (Option (Nat × Nat))
  | 0 => none
  | fuel + 1 =>
    if brp < bitwidth / 4 then
      match scanBits bitwidth ((brp + 1) % 65536) 22 with
      | some bits => some (some ((brp + 1) % 65536, bits))
      | none => searchBrp bitwidth ((brp + 1) % 65536) fuel
    else some none

/-- `can_speed(sclk, cclk, psjw)` from can_api.c: derive the bit-timing
word `(clkdiv << 16) | (TSEG2 << 12) | (TSEG1 << 8) | (SJW << 6) | BRP`,
or 0 when the search exits with no exact quantum match.  `brp` is a
`uint16_t`, so the initial `brp = bitwidth / 0x18` truncates modulo
2^16.  When `bitwidth / 4` exceeds every 16-bit prescaler value and no
quantum match exists anywhere in the 16-bit range, the C while-loop
never terminates; that divergence is modelled as `none`. -/
def can_speed (sclk cclk : Nat) (psjw : Nat) : Option Nat :=
  let clkdiv : Nat := 1
  let bitwidth := sclk / cclk
  let brp := (bitwidth / 0x18) % 65536
  let clkdiv := clkdiv - 1
  match searchBrp bitwidth brp 65536 with
  | some (some (brp, bits)) =>
    let t := timing_pts.getD bits (0, 0)
    let btr := ((t.2 &&& 0x7) <<< 12) ||| ((t.1 &&& 0xF) <<< 8) |||
               ((psjw &&& 0x3) <<< 6) ||| (brp &&& 0x3F)
    some (btr ||| (clkdiv <<< 16))
  | some none => some 0
  | none => none

/-- TSEG1 field of a packed bit-timing word. -/
def btrTseg1 (btr : Nat) : Nat := (btr >>> 8) &&& 0xF

/-- TSEG2 field of a packed bit-timing word. -/
def btrTseg2 (btr : Nat) : Nat := (btr >>> 12) &&& 0x7

/-- Total bit-quantum count encoded by a bit-timing word, following the
`timing_pts` table comments: entry `i = TSEG1 + TSEG2` decodes to a
total of `i + 2` quanta. -/
def btrQuanta (btr : Nat) : Nat := btrTseg1 btr + btrTseg2 btr + 2

/-! ### Message-object controller state -/

/-- Modelled from the spec: the HAL `CANFormat` enum (header not under
src/) — "identifier (11-bit standard or 29-bit extended), format flag". -/
inductive CANFormat where
  | CANStandard
  | CANExtended
deriving DecidableEq, Repr

/-- Modelled from the spec: the HAL `CANType` enum (header not under
src/) — a frame is either a data frame or a remote frame. -/
inductive CANType where
  | CANData
  | CANRemote
deriving DecidableEq, Repr

/-- Modelled from the spec: the HAL `CAN_Message` record (header not
under src/) — "identifier, format flag, dataLength 0-8, payload up to
8 bytes". -/
structure CAN_Message where
  id : Nat
  data : Fin 8 → Nat
  len : Nat
  format : CANFormat
  type : CANType

/-- One hardware-resident message object / interface shadow register set:
arbitration, mask, control and four 16-bit data registers. -/
structure MsgObj where
  arb1 : Nat := 0
  arb2 : Nat := 0
  msk1 : Nat := 0
  msk2 : Nat := 0
  mctrl : Nat := 0
  da1 : Nat := 0
  da2 : Nat := 0
  db1 : Nat := 0
  db2 : Nat := 0
deriving Repr

/-- C_CAN controller register state touched by can_api.c: control/test/
status, bit-timing registers, the hardware-maintained MSGVAL / TXREQ /
NEWDAT mirror bitmaps (16 bits per register, slots 1-16 and 17-32), the
two shadow interfaces, and the message RAM (slot number to object). -/
structure CanState where
  cancntl : Nat
  cantest : Nat
  canstat : Nat
  canclkdiv : Nat
  canbt : Nat
  canbrpe : Nat
  canmsgv1 : Nat
  canmsgv2 : Nat
  cantxreq1 : Nat
  cantxreq2 : Nat
  cannd1 : Nat
  cannd2 : Nat
  if1 : MsgObj
  if1cmdreq : Nat
  if2 : MsgObj
  if2cmdreq : Nat
  msgRam : Nat → MsgObj

/-- Set bit `i` in the split 16-bit pair `(lo, hi)` mirroring a 32-bit
bitmap (bit `i < 16` in `lo`, bit `i - 16` in `hi`). -/
def bitmapSet (lo hi : Nat) (i : Nat) : Nat × Nat :=
  if i < 16 then (lo ||| (1 <<< i), hi) else (lo, hi ||| (1 <<< (i - 16)))

/-- Clear bit `i` in the split 16-bit pair `(lo, hi)`. -/
def bitmapClear (lo hi : Nat) (i : Nat) : Nat × Nat :=
  if i < 16 then (lo &&& not32 (1 <<< i), hi) else (lo, hi &&& not32 (1 <<< (i - 16)))

/-- Hardware contract of the C_CAN command-request handshake on IF1 with
`CMDMSK.WR` set (external collaborator, not driver code): the fields
selected by `cmdmsk` are copied from the IF1 shadow registers into
message RAM slot `n`; the MSGVAL mirror bitmap follows the transferred
ARB2 valid bit, and the TXRQST bit of `cmdmsk` sets the slot's
transmit-request bit.  The BUSY bit is modelled as already cleared,
matching the driver's busy-wait until hardware completes. -/
def cmdreqWrite1 (st : CanState) (n : Nat) (cmdmsk : Nat) : CanState :=
  let old := st.msgRam n
  let arbSel := cmdmsk &&& CANIFn_CMDMSK_ARB ≠ 0
  let mskSel := cmdmsk &&& CANIFn_CMDMSK_MASK ≠ 0
  let ctrlSel := cmdmsk &&& CANIFn_CMDMSK_CTRL ≠ 0
  let daSel := cmdmsk &&& CANIFn_CMDMSK_DATA_A ≠ 0
  let dbSel := cmdmsk &&& CANIFn_CMDMSK_DATA_B ≠ 0
  let upd : MsgObj :=
    { arb1 := if arbSel then st.if1.arb1 else old.arb1
      arb2 := if arbSel then st.if1.arb2 else old.arb2
      msk1 := if mskSel then st.if1.msk1 else old.msk1
      msk2 := if mskSel then st.if1.msk2 else old.msk2
      mctrl := if ctrlSel then st.if1.mctrl else old.mctrl
      da1 := if daSel then st.if1.da1 else old.da1
      da2 := if daSel then st.if1.da2 else old.da2
      db1 := if dbSel then st.if1.db1 else old.db1
      db2 := if dbSel then st.if1.db2 else old.db2 }
  let st := { st with msgRam := fun m => if m = n then upd else st.msgRam m }
  let st :=
    if arbSel then
      let mv := if upd.arb2 &&& CANIFn_ARB2_MSGVAL ≠ 0 then
                  bitmapSet st.canmsgv1 st.canmsgv2 (n - 1)
                else
                  bitmapClear st.canmsgv1 st.canmsgv2 (n - 1)
      { st with canmsgv1 := mv.1, canmsgv2 := mv.2 }
    else st
  if cmdmsk &&& CANIFn_CMDMSK_TXRQST ≠ 0 then
    let tx := bitmapSet st.cantxreq1 st.cantxreq2 (n - 1)
    { st with cantxreq1 := tx.1, cantxreq2 := tx.2 }
  else st

/-- Hardware contract of the C_CAN command-request handshake on IF2 with
`CMDMSK.WR` clear (a read-back, external collaborator): the fields
selected by `cmdmsk` are copied from message RAM slot `n` into the IF2
shadow registers; the NEWDAT bit of `cmdmsk` clears the slot's new-data
bit.  The BUSY bit is modelled as already cleared. -/
def cmdreqRead2 (st : CanState) (n : Nat) (cmdmsk : Nat) : CanState :=
  let obj := st.msgRam n
  let arbSel := cmdmsk &&& CANIFn_CMDMSK_ARB ≠ 0
  let mskSel := cmdmsk &&& CANIFn_CMDMSK_MASK ≠ 0
  let ctrlSel := cmdmsk &&& CANIFn_CMDMSK_CTRL ≠ 0
  let daSel := cmdmsk &&& CANIFn_CMDMSK_DATA_A ≠ 0
  let dbSel := cmdmsk &&& CANIFn_CMDMSK_DATA_B ≠ 0
  let if2 : MsgObj :=
    { arb1 := if arbSel then obj.arb1 else st.if2.arb1
      arb2 := if arbSel then obj.arb2 else st.if2.arb2
      msk1 := if mskSel then obj.msk1 else st.if2.msk1
      msk2 := if mskSel then obj.msk2 else st.if2.msk2
      mctrl := if ctrlSel then obj.mctrl else st.if2.mctrl
      da1 := if daSel then obj.da1 else st.if2.da1
      da2 := if daSel then obj.da2 else st.if2.da2
      db1 := if dbSel then obj.db1 else st.if2.db1
      db2 := if dbSel then obj.db2 else st.if2.db2 }
  let st := { st with if2 := if2 }
  if cmdmsk &&& CANIFn_CMDMSK_NEWDAT ≠ 0 then
    let nd := bitmapClear st.cannd1 st.cannd2 (n - 1)
    { st with cannd1 := nd.1, cannd2 := nd.2 }
  else st

/-- `for (i = start; i < start + fuel; i++) if (p i) break;` — the
first-match-with-break loop pattern used by `can_filter`, `can_write`
and `can_read`. -/
def findFirstIdx (p : Nat → Bool) (start : Nat) : Nat → Option Nat
  | 0 => none
  | fuel + 1 => if p start then some start else findFirstIdx p (start + 1) fuel

/-- `can_disable` from can_api.c: set CANCNTL.INIT. -/
def can_disable (st : CanState) : CanState :=
  { st with cancntl := st.cancntl ||| 0x1 }

/-- `can_enable` from can_api.c: clear CANCNTL.INIT if set. -/
def can_enable (st : CanState) : CanState :=
  if st.cancntl &&& 0x1 ≠ 0 then
    { st with cancntl := st.cancntl &&& not32 0x1 }
  else st

/-- `can_filter(obj, id, mask, format, handle)` from can_api.c.  With
`handle == 0` the first slot whose MSGVAL bit is clear in the aggregate
`CANMSGV1 | (CANMSGV2 << 16)` bitmap is chosen; a handle in [1,32] is
then configured through the IF1 write handshake.  Returns the handle
(unchanged when the guard `0 < handle && handle <= 32` fails). -/
def can_filter (st : CanState) (id mask : Nat) (format : CANFormat) (handle : Int) :
    Int × CanState :=
  let handle : Int :=
    if handle = 0 then
      let msgval := st.canmsgv1 ||| (st.canmsgv2 <<< 16)
      match findFirstIdx (fun i => msgval &&& (1 <<< i) == 0) 0 32 with
      | some i => (i : Int) + 1
      | none => 0
    else handle
  if 0 < handle ∧ handle ≤ 32 then
    let if1 :=
      match format with
      | CANFormat.CANExtended =>
        { st.if1 with
          arb1 := id &&& 0xFFFF
          arb2 := CANIFn_ARB2_MSGVAL ||| CANIFn_ARB2_XTD ||| ((id >>> 16) &&& 0x1FFF)
          msk1 := mask &&& 0xFFFF
          msk2 := CANIFn_MSK2_MXTD ||| ((mask >>> 16) &&& 0x1FFF) }
      | CANFormat.CANStandard =>
        { st.if1 with
          arb2 := CANIFn_ARB2_MSGVAL ||| ((id <<< 2) &&& 0x1FFF)
          msk2 := (mask <<< 2) &&& 0x1FFF }
    let if1 := { if1 with mctrl := CANIFn_MCTRL_UMASK ||| CANIFn_MCTRL_EOB ||| (DLC_MAX &&& 0xF) }
    let cmdmsk := CANIFn_CMDMSK_WR ||| CANIFn_CMDMSK_MASK ||| CANIFn_CMDMSK_ARB ||| CANIFn_CMDMSK_CTRL
    let st := { st with if1 := if1, if1cmdreq := handle.toNat &&& 0x3F }
    (handle, cmdreqWrite1 st (handle.toNat &&& 0x3F) cmdmsk)
  else
    (handle, st)

/-- `can_frequency(obj, f)` from can_api.c (the `SystemCoreClock` global
is passed explicitly): run the solver, and only on a nonzero timing word
program CANCLKDIV / CANBT / CANBRPE under CCE+INIT; otherwise return 0
with the state untouched.  When the solver's loop never terminates,
`can_frequency` never returns either (`none`). -/
def can_frequency (st : CanState) (systemCoreClock : Nat) (f : Nat) :
    Option (Int × CanState) :=
  match can_speed systemCoreClock f 1 with
  | none => none
  | some w =>
    let clkdiv := (w >>> 16) &&& 0x0F
    let btr := w &&& 0xFFFF
    if btr > 0 then
      let st := { st with cancntl := st.cancntl ||| ((1 <<< 6) ||| (1 <<< 0)) }
      let st := { st with canclkdiv := clkdiv, canbt := btr, canbrpe := 0x0000 }
      let st := { st with cancntl := st.cancntl &&& not32 ((1 <<< 6) ||| (1 <<< 0)) }
      some (1, st)
    else
      some (0, st)

/-- `can_write(obj, msg, cc)` from can_api.c: pick the first slot in
`[RX_MSG_OBJ_COUNT, 32)` whose transmit-request bit is clear in
`(CANTXREQ1 & 0xFF) | (CANTXREQ2 << 16)`; fail with 0 when none; else
stage arbitration/mask/control/data into IF1, hand it to the chosen
slot, clear CANSTAT.TXOK, return 1. -/
def can_write (st : CanState) (msg : CAN_Message) (cc : Int) : Int × CanState :=
  let st := can_enable st
  let txPending := (st.cantxreq1 &&& 0xFF) ||| (st.cantxreq2 <<< 16)
  let msgnum : Nat :=
    match findFirstIdx (fun i => txPending &&& (1 <<< i) == 0) RX_MSG_OBJ_COUNT
        (32 - RX_MSG_OBJ_COUNT) with
    | some i => i + 1
    | none => 0
  if msgnum == 0 then
    (0, st)
  else
    let direction := if msg.type = CANType.CANData then CANIFn_ARB2_DIR else 0
    let if1 :=
      match msg.format with
      | CANFormat.CANExtended =>
        { st.if1 with
          arb1 := msg.id &&& 0xFFFF
          arb2 := CANIFn_ARB2_MSGVAL ||| CANIFn_ARB2_XTD ||| direction |||
                  ((msg.id >>> 16) &&& 0x1FFFF)
          msk1 := ID_EXT_MASK &&& 0xFFFF
          msk2 := CANIFn_MSK2_MXTD ||| CANIFn_MSK2_MDIR ||| ((ID_EXT_MASK >>> 16) &&& 0x1FFF) }
      | CANFormat.CANStandard =>
        { st.if1 with
          arb2 := CANIFn_ARB2_MSGVAL ||| direction ||| ((msg.id <<< 2) &&& 0x1FFF)
          msk2 := CANIFn_MSK2_MDIR ||| ((ID_STD_MASK <<< 2) &&& 0x1FFF) }
    let if1 := { if1 with
      mctrl := CANIFn_MCTRL_UMASK ||| CANIFn_MCTRL_TXRQST ||| CANIFn_MCTRL_EOB |||
               (msg.len &&& 0xF)
      da1 := ((msg.data 1 &&& 0xFF) <<< 8) ||| (msg.data 0 &&& 0xFF)
      da2 := ((msg.data 3 &&& 0xFF) <<< 8) ||| (msg.data 2 &&& 0xFF)
      db1 := ((msg.data 5 &&& 0xFF) <<< 8) ||| (msg.data 4 &&& 0xFF)
      db2 := ((msg.data 7 &&& 0xFF) <<< 8) ||| (msg.data 6 &&& 0xFF) }
    let cmdmsk := CANIFn_CMDMSK_WR ||| CANIFn_CMDMSK_MASK ||| CANIFn_CMDMSK_ARB |||
                  CANIFn_CMDMSK_CTRL ||| CANIFn_CMDMSK_TXRQST ||| CANIFn_CMDMSK_DATA_A |||
                  CANIFn_CMDMSK_DATA_B
    let st := { st with if1 := if1, if1cmdreq := msgnum &&& 0x3F }
    let st := cmdreqWrite1 st (msgnum &&& 0x3F) cmdmsk
    let st := { st with canstat := st.canstat &&& not32 (1 <<< 3) }
    (1, st)

/-- `can_read(obj, msg, handle)` from can_api.c.  With `handle == 0` the
first slot in `[0, RX_MSG_OBJ_COUNT)` whose bit is *set* in the
aggregate `CANND1 | (CANND2 << 16)` new-data bitmap is chosen (handle
stays 0 when none).  A handle in [1,32] is read back through the IF2
handshake unconditionally, CANSTAT.RXOK is cleared, and 1 is returned
with the decoded message; otherwise 0. -/
def can_read (st : CanState) (handle : Int) : Int × Option CAN_Message × CanState :=
  let st := can_enable st
  let handle : Int :=
    if handle = 0 then
      let newdata := st.cannd1 ||| (st.cannd2 <<< 16)
      match findFirstIdx (fun i => !(newdata &&& (1 <<< i) == 0)) 0 RX_MSG_OBJ_COUNT with
      | some i => (i : Int) + 1
      | none => 0
    else handle
  if 0 < handle ∧ handle ≤ 32 then
    let cmdmsk := CANIFn_CMDMSK_RD ||| CANIFn_CMDMSK_MASK ||| CANIFn_CMDMSK_ARB |||
                  CANIFn_CMDMSK_CTRL ||| CANIFn_CMDMSK_CLRINTPND ||| CANIFn_CMDMSK_TXRQST |||
                  CANIFn_CMDMSK_DATA_A ||| CANIFn_CMDMSK_DATA_B
    let st := { st with if2cmdreq := handle.toNat &&& 0x3F }
    let st := cmdreqRead2 st (handle.toNat &&& 0x3F) cmdmsk
    let fmtExt := st.if2.arb2 &&& CANIFn_ARB2_XTD ≠ 0
    let msg : CAN_Message :=
      { format := if fmtExt then CANFormat.CANExtended else CANFormat.CANStandard
        id := if fmtExt then
                ((st.if2.arb2 &&& 0x1FFF) <<< 16) ||| (st.if2.arb1 &&& 0xFFFF)
              else
                (st.if2.arb2 &&& 0x1FFF) >>> 2
        type := if st.if2.arb2 &&& CANIFn_ARB2_DIR ≠ 0 then CANType.CANRemote
                else CANType.CANData
        len := st.if2.mctrl &&& 0xF
        data := fun i =>
          match i with
          | 0 => (st.if2.da1 >>> 0) &&& 0xFF
          | 1 => (st.if2.da1 >>> 8) &&& 0xFF
          | 2 => (st.if2.da2 >>> 0) &&& 0xFF
          | 3 => (st.if2.da2 >>> 8) &&& 0xFF
          | 4 => (st.if2.db1 >>> 0) &&& 0xFF
          | 5 => (st.if2.db1 >>> 8) &&& 0xFF
          | 6 => (st.if2.db2 >>> 0) &&& 0xFF
          | 7 => (st.if2.db2 >>> 8) &&& 0xFF }
    let st := { st with canstat := st.canstat &&& not32 (1 <<< 4) }
    (1, some msg, st)
  else
    (0, none, st)

/-- Modelled from the spec: the HAL `CanIrqType` enum (header not under
src/).  The spec's public surface lists exactly the five interrupt kinds
RX, TX, Bus-off, Error-passive, Error-warning, which are exactly the
cases the driver's switch statements handle. -/
inductive CanIrqType where
  | IRQ_RX
  | IRQ_TX
  | IRQ_BUS
  | IRQ_PASSIVE
  | IRQ_ERROR
deriving DecidableEq, Repr

/-- `can_irq` from can_api.c, the interrupt dispatcher.  Callback
invocations (`irq_handler(can_irq_id, kind)`) are modelled as the list
of kinds fired, in program order.  `canint` is the CANINT register value
and `enabled_irqs` the driver's global enable mask. -/
def can_irq (canint : Nat) (enabled_irqs : Nat) (st : CanState) :
    List CanIrqType × CanState :=
  let intid := canint &&& 0xFFFF
  if intid = 0x8000 then
    let status := st.canstat
    let ev1 := if status &&& CANSTAT_BOFF ≠ 0 ∧ enabled_irqs &&& IRQ_ENABLE_BE ≠ 0 then
                 [CanIrqType.IRQ_BUS] else []
    let ev2 := if status &&& CANSTAT_EPASS ≠ 0 ∧ enabled_irqs &&& IRQ_ENABLE_EP ≠ 0 then
                 [CanIrqType.IRQ_PASSIVE] else []
    let ev3 := if status &&& CANSTAT_EWARN ≠ 0 ∧ enabled_irqs &&& IRQ_ENABLE_EW ≠ 0 then
                 [CanIrqType.IRQ_ERROR] else []
    let r4 := if status &&& CANSTAT_RXOK ≠ 0 then
                ([CanIrqType.IRQ_RX], { st with canstat := st.canstat &&& not32 CANSTAT_RXOK })
              else ([], st)
    let st := r4.2
    let r5 := if status &&& CANSTAT_TXOK ≠ 0 then
                ([CanIrqType.IRQ_TX], { st with canstat := st.canstat &&& not32 CANSTAT_TXOK })
              else ([], st)
    (ev1 ++ ev2 ++ ev3 ++ r4.1 ++ r5.1, r5.2)
  else
    ([], st)

/-- `can_irq_set(obj, type, enable)` from can_api.c (the `enabled_irqs`
global is passed and returned explicitly; NVIC calls are external).
Updates the enable mask, then rewrites the CANCNTL IE/SIE/EIE bits under
a transient disable/enable of the controller. -/
def can_irq_set (ty : CanIrqType) (enable : Nat) (enabled_irqs : Nat) (st : CanState) :
    Nat × CanState :=
  let mask_enable :=
    match ty with
    | CanIrqType.IRQ_RX => IRQ_ENABLE_RX
    | CanIrqType.IRQ_TX => IRQ_ENABLE_TX
    | CanIrqType.IRQ_BUS => IRQ_ENABLE_BE
    | CanIrqType.IRQ_PASSIVE => IRQ_ENABLE_EP
    | CanIrqType.IRQ_ERROR => IRQ_ENABLE_EW
  let enabled_irqs :=
    if enable ≠ 0 then enabled_irqs ||| mask_enable
    else enabled_irqs &&& not32 mask_enable
  let st := can_disable st
  let st :=
    if enabled_irqs &&& IRQ_ENABLE_ANY = 0 then
      { st with cancntl := st.cancntl &&& not32 ((1 <<< 1) ||| (1 <<< 2) ||| (1 <<< 3)) }
    else
      let st := { st with cancntl := st.cancntl ||| (1 <<< 1) }
      let st := if enabled_irqs &&& IRQ_ENABLE_STATUS ≠ 0 then
                  { st with cancntl := st.cancntl ||| (1 <<< 2) }
                else
                  { st with cancntl := st.cancntl &&& not32 (1 <<< 2) }
      if enabled_irqs &&& IRQ_ENABLE_ERROR ≠ 0 then
        { st with cancntl := st.cancntl ||| (1 <<< 3) }
      else
        { st with cancntl := st.cancntl &&& not32 (1 <<< 3) }
  (enabled_irqs, can_enable st)

end CanApi

namespace RtcApi

/-! ### RTC driver (rtc_api.c, TARGET_M2354) -/

/-- Modelled from the spec: BSP date-time constants (`RTC_CLOCK_12`,
`RTC_CLOCK_24`, `RTC_AM`, `RTC_PM`, `RTC_SATURDAY` from the Nuvoton BSP
header, not under src/); only their distinctness matters to the driver. -/
def RTC_CLOCK_12 : Nat := 0

def RTC_CLOCK_24 : Nat := 1

def RTC_AM : Nat := 0

def RTC_PM : Nat := 1

def RTC_SATURDAY : Nat := 6

/-- `S_RTC_TIME_DATA_T`: the hardware date-time register image. -/
structure S_RTC_TIME_DATA_T where
  u32Year : Nat
  u32Month : Nat
  u32Day : Nat
  u32DayOfWeek : Nat
  u32Hour : Nat
  u32Minute : Nat
  u32Second : Nat
  u32TimeScale : Nat
  u32AmPm : Nat
deriving DecidableEq, Repr

/-- `struct tm` fields used by the driver (C `int` fields). -/
structure Tm where
  tm_sec : Int
  tm_min : Int
  tm_hour : Int
  tm_mday : Int
  tm_mon : Int
  tm_year : Int
  tm_wday : Int
deriving DecidableEq, Repr

def NU_TM_YEAR0 : Nat := 1900
def NU_POSIX_YEAR0 : Nat := 1970
def NU_HWRTC_YEAR0 : Nat := 2000

/-- RTC H/W origin time: 00:00:00 UTC, Saturday, 1 January 2000. -/
def DATETIME_HWRTC_ORIGIN : S_RTC_TIME_DATA_T :=
  { u32Year := 2000
    u32Month := 1
    u32Day := 1
    u32DayOfWeek := RTC_SATURDAY
    u32Hour := 0
    u32Minute := 0
    u32Second := 0
    u32TimeScale := RTC_CLOCK_24
    u32AmPm := 0 }

/-- `rtc_convert_datetime_hwrtc_to_tm` from rtc_api.c: convert the
hardware date-time image to `struct tm`, honouring 12/24-hour mode
(12-hour PM adds 12 hours). -/
def rtc_convert_datetime_hwrtc_to_tm (d : S_RTC_TIME_DATA_T) : Tm :=
  { tm_year := (d.u32Year : Int) - (NU_TM_YEAR0 : Int)
    tm_mon := (d.u32Month : Int) - 1
    tm_mday := (d.u32Day : Int)
    tm_wday := (d.u32DayOfWeek : Int)
    tm_hour := if d.u32TimeScale = RTC_CLOCK_12 ∧ d.u32AmPm = RTC_PM then
                 (d.u32Hour : Int) + 12
               else (d.u32Hour : Int)
    tm_min := (d.u32Minute : Int)
    tm_sec := (d.u32Second : Int) }

/-- Proleptic Gregorian leap-year test. -/
def isLeapYear (y : Nat) : Bool :=
  y % 4 == 0 && (y % 100 != 0 || y % 400 == 0)

/-- Days in month `m` (0-based) of year `y`. -/
def daysInMonth (y : Nat) (m : Nat) : Nat :=
  match m with
  | 0 => 31
  | 1 => if isLeapYear y then 29 else 28
  | 2 => 31
  | 3 => 30
  | 4 => 31
  | 5 => 30
  | 6 => 31
  | 7 => 31
  | 8 => 30
  | 9 => 31
  | 10 => 30
  | _ => 31

/-- Cumulative days before month `m` (0-based) in a non-leap year. -/
def daysBeforeMonth (m : Nat) : Nat :=
  match m with
  | 0 => 0
  | 1 => 31
  | 2 => 59
  | 3 => 90
  | 4 => 120
  | 5 => 151
  | 6 => 181
  | 7 => 212
  | 8 => 243
  | 9 => 273
  | 10 => 304
  | _ => 334

/-- Leap days in years `1 .. y - 1` (full div-4 / div-100 / div-400 rule). -/
def leapDaysBefore (y : Nat) : Nat :=
  (y - 1) / 4 - (y - 1) / 100 + (y - 1) / 400

/-- Modelled from the spec: `_rtc_maketime` from mbed's mbed_mktime
module (not under src/) — "converts calendar structure to POSIX time
using a leap-year-complete algorithm" that "supports the full leap-year
range from 1970 onward" and "rejects an implausible calendar value"
(signalled via a false return, modelled as `none`).  Validation: year at
least 1970, month in 0..11, day in 1..days-in-month, hour in 0..23,
minute and second in 0..59. -/
def rtc_maketime_full (t : Tm) : Option Int :=
  if 70 ≤ t.tm_year ∧ 0 ≤ t.tm_mon ∧ t.tm_mon ≤ 11 ∧
      1 ≤ t.tm_mday ∧ 0 ≤ t.tm_hour ∧ t.tm_hour ≤ 23 ∧
      0 ≤ t.tm_min ∧ t.tm_min ≤ 59 ∧ 0 ≤ t.tm_sec ∧ t.tm_sec ≤ 59 then
    let y := (t.tm_year + 1900).toNat
    let m := t.tm_mon.toNat
    let d := t.tm_mday.toNat
    if d ≤ daysInMonth y m then
      let days := 365 * (y - NU_POSIX_YEAR0) + (leapDaysBefore y - leapDaysBefore NU_POSIX_YEAR0) +
                  daysBeforeMonth m + (if isLeapYear y ∧ 2 ≤ m then 1 else 0) + (d - 1)
      some (((((days : Int) * 24 + t.tm_hour) * 60 + t.tm_min) * 60) + t.tm_sec)
    else
      none
  else
    none

/-- Driver + hardware state for the RTC: the module clock gate and the
INIT-active flag (both hardware), the spare scratch register and current
date-time registers (hardware), and the driver's three static
variables. -/
structure RtcState where
  clockEnabled : Bool
  initActive : Bool
  spare : Int
  hwDateTime : S_RTC_TIME_DATA_T
  t_hwrtc_origin_inited : Bool
  t_hwrtc_origin : Int
  t_write : Int

/-- `rtc_isenabled_impl` from rtc_api.c: enables the module clock as a
side effect, then reads the hardware INIT-active flag (`!!` collapses it
to 0/1). -/
def rtc_isenabled_impl (st : RtcState) : Int × RtcState :=
  let st := { st with clockEnabled := true }
  (if st.initActive then 1 else 0, st)

/-- Hardware contract of the BSP `RTC_Open(NULL)` call (external
collaborator): powers up the RTC and latches the persistent INIT-active
flag; with a NULL argument the date-time registers are left alone. -/
def RTC_Open (st : RtcState) : RtcState :=
  { st with initActive := true }

/-- Body of `rtc_write_impl` after its enable check: record `t_write`,
persist it in spare register 0, and reset the hardware date-time to
`DATETIME_HWRTC_ORIGIN` (the three-engine-clock settle delay has no
state effect).  The spare-register marshaling is modelled from the spec
("persisted in a single hardware non-volatile scratch slot"). -/
def rtc_write_body (t : Int) (st : RtcState) : RtcState :=
  { st with t_write := t, spare := t, hwDateTime := DATETIME_HWRTC_ORIGIN }

/-- `rtc_init_impl` from rtc_api.c: if already enabled do nothing, else
`RTC_Open` then `rtc_write_impl(0)`.  The recursive `rtc_write_impl(0)`
call is unrolled to `rtc_write_body 0`: its own enable check necessarily
passes because `RTC_Open` has just latched the INIT-active flag (the
unrolling is proved as `rtc_init_impl_unfold` below). -/
def rtc_init_impl (st : RtcState) : RtcState :=
  let r := rtc_isenabled_impl st
  if r.1 ≠ 0 then r.2
  else rtc_write_body 0 (RTC_Open r.2)

/-- `rtc_write_impl(t)` from rtc_api.c: initialise if not enabled, then
run the write body. -/
def rtc_write_impl (t : Int) (st : RtcState) : RtcState :=
  let r := rtc_isenabled_impl st
  let st := if r.1 ≠ 0 then r.2 else rtc_init_impl r.2
  rtc_write_body t st

/-- Common tail of `rtc_read_impl`: read the current hardware date-time,
convert to POSIX time, and return
`t_write + (t_hwrtc_elapsed - t_hwrtc_origin)`; 0 when the conversion
rejects the date. -/
def rtc_read_present (st : RtcState) : Int × RtcState :=
  match rtc_maketime_full (rtc_convert_datetime_hwrtc_to_tm st.hwDateTime) with
  | none => (0, st)
  | some t_hwrtc_elapsed => (st.t_write + (t_hwrtc_elapsed - st.t_hwrtc_origin), st)

/-- `rtc_read_impl` from rtc_api.c: ensure enabled; on the first call
mark the origin initialised, convert `DATETIME_HWRTC_ORIGIN` to POSIX
time (0 on rejection) and reload `t_write` from the spare register; then
compute the present POSIX time from the hardware date-time. -/
def rtc_read_impl (st : RtcState) : Int × RtcState :=
  let r := rtc_isenabled_impl st
  let st := if r.1 ≠ 0 then r.2 else rtc_init_impl r.2
  if ¬ st.t_hwrtc_origin_inited then
    let st := { st with t_hwrtc_origin_inited := true }
    match rtc_maketime_full (rtc_convert_datetime_hwrtc_to_tm DATETIME_HWRTC_ORIGIN) with
    | none => (0, st)
    | some o => rtc_read_present { st with t_hwrtc_origin := o, t_write := st.spare }
  else
    rtc_read_present st

/-- `rtc_free_impl` from rtc_api.c: disable the module clock. -/
def rtc_free_impl (st : RtcState) : RtcState :=
  { st with clockEnabled := false }

/-- `rtc_init_s`, the `__NONSECURE_ENTRY` trust-boundary entry point:
calls `rtc_init_impl` directly. -/
def rtc_init_s (st : RtcState) : RtcState := rtc_init_impl st

/-- `rtc_free_s`, the `__NONSECURE_ENTRY` entry point for free. -/
def rtc_free_s (st : RtcState) : RtcState := rtc_free_impl st

/-- `rtc_isenabled_s`, the `__NONSECURE_ENTRY` entry point for
isenabled. -/
def rtc_isenabled_s (st : RtcState) : Int × RtcState := rtc_isenabled_impl st

/-- `rtc_read_s`, the `__NONSECURE_ENTRY` entry point for read. -/
def rtc_read_s (st : RtcState) : Int × RtcState := rtc_read_impl st

/-- `rtc_write_s`, the `__NONSECURE_ENTRY` entry point for write. -/
def rtc_write_s (t : Int) (st : RtcState) : RtcState := rtc_write_impl t st

/-- `rtc_init` HAL front end: calls `rtc_init_s`. -/
def rtc_init (st : RtcState) : RtcState := rtc_init_s st

/-- `rtc_free` HAL front end: calls `rtc_free_s`. -/
def rtc_free (st : RtcState) : RtcState := rtc_free_s st

/-- `rtc_isenabled` HAL front end: calls `rtc_isenabled_s`. -/
def rtc_isenabled (st : RtcState) : Int × RtcState := rtc_isenabled_s st

/-- `rtc_read` HAL front end: calls `rtc_read_s`. -/
def rtc_read (st : RtcState) : Int × RtcState := rtc_read_s st

/-- `rtc_write` HAL front end: calls `rtc_write_s`. -/
def rtc_write (t : Int) (st : RtcState) : RtcState := rtc_write_s t st

/-- POSIX time of `DATETIME_HWRTC_ORIGIN`
(00:00:00 UTC, 1 January 2000). -/
def hwrtcOriginEpoch : Int := 946684800

/-- A power-up RTC state: clock gated off, INIT-active clear, statics at
their C initialisers. -/
def rtcStFresh : RtcState :=
  { clockEnabled := false
    initActive := false
    spare := 0
    hwDateTime := DATETIME_HWRTC_ORIGIN
    t_hwrtc_origin_inited := false
    t_hwrtc_origin := 0
    t_write := 0 }

/-- An enabled RTC state whose hardware date-time registers hold an
implausible value (month 13), rejected by the epoch conversion. -/
def rtcStBad : RtcState :=
  { clockEnabled := true
    initActive := true
    spare := 0
    hwDateTime :=
      { u32Year := 2025
        u32Month := 13
        u32Day := 1
        u32DayOfWeek := 0
        u32Hour := 0
        u32Minute := 0
        u32Second := 0
        u32TimeScale := RTC_CLOCK_24
        u32AmPm := 0 }
    t_hwrtc_origin_inited := false
    t_hwrtc_origin := 0
    t_write := 0 }

end RtcApi

namespace CanApi

/-- An all-zero controller state (registers cleared, message RAM
zeroed). -/
def canStZero : CanState :=
  { cancntl := 0
    cantest := 0
    canstat := 0
    canclkdiv := 0
    canbt := 0
    canbrpe := 0
    canmsgv1 := 0
    canmsgv2 := 0
    cantxreq1 := 0
    cantxreq2 := 0
    cannd1 := 0
    cannd2 := 0
    if1 := {}
    if1cmdreq := 0
    if2 := {}
    if2cmdreq := 0
    msgRam := fun _ => {} }

/-- A controller state with Bus-off, Error-passive and Receive-complete
simultaneously asserted in CANSTAT. -/
def canStC5 : CanState :=
  { canStZero with canstat := CANSTAT_BOFF ||| CANSTAT_EPASS ||| CANSTAT_RXOK }

/-- A controller state with message slots 1-3 valid (so slot 4 is the
first free one) and slot 3 flagged new-data. -/
def canStPools : CanState :=
  { canStZero with canmsgv1 := 7, cannd1 := 4 }

/-- An all-zero CAN message. -/
def msgZero : CAN_Message :=
  { id := 0
    data := fun _ => 0
    len := 0
    format := CANFormat.CANStandard
    type := CANType.CANData }

/-- The callback kinds `can_irq` fires for a given latched CANSTAT value
and enable mask, in the dispatcher's fixed order: Bus-off,
Error-passive, Error-warning, Receive-complete, Transmit-complete.
Error-condition callbacks are gated on their enable bit; RX/TX
completion callbacks fire whenever asserted. -/
def firedKinds (status enabled_irqs : Nat) : List CanIrqType :=
  [CanIrqType.IRQ_BUS, CanIrqType.IRQ_PASSIVE, CanIrqType.IRQ_ERROR,
   CanIrqType.IRQ_RX, CanIrqType.IRQ_TX].filter fun k =>
    match k with
    | CanIrqType.IRQ_BUS =>
      decide (status &&& CANSTAT_BOFF ≠ 0 ∧ enabled_irqs &&& IRQ_ENABLE_BE ≠ 0)
    | CanIrqType.IRQ_PASSIVE =>
      decide (status &&& CANSTAT_EPASS ≠ 0 ∧ enabled_irqs &&& IRQ_ENABLE_EP ≠ 0)
    | CanIrqType.IRQ_ERROR =>
      decide (status &&& CANSTAT_EWARN ≠ 0 ∧ enabled_irqs &&& IRQ_ENABLE_EW ≠ 0)
    | CanIrqType.IRQ_RX => decide (status &&& CANSTAT_RXOK ≠ 0)
    | CanIrqType.IRQ_TX => decide (status &&& CANSTAT_TXOK ≠ 0)

end CanApi

/-! ## Helper lemmas -/

namespace CanApi

theorem findFirstIdx_some {p : Nat → Bool} {start fuel a : Nat}
    (h : findFirstIdx p start fuel = some a) :
    p a = true ∧ start ≤ a ∧ a < start + fuel ∧ ∀ b, start ≤ b → b < a → p b = false := by
  induction fuel generalizing start with
  | zero => simp [findFirstIdx] at h
  | succ n ih =>
    rw [findFirstIdx] at h
    by_cases hp : p start = true
    · simp [hp] at h
      subst h
      exact ⟨hp, Nat.le_refl _, by omega, fun b hb1 hb2 => by omega⟩
    · simp [hp] at h
      obtain ⟨hpa, h1, h2, h3⟩ := ih h
      refine ⟨hpa, by omega, by omega, fun b hb1 hb2 => ?_⟩
      rcases Nat.eq_or_lt_of_le hb1 with rfl | hlt
      · exact Bool.eq_false_iff.mpr fun hb => hp hb
      · exact h3 b hlt hb2

theorem findFirstIdx_eq_some {p : Nat → Bool} {start fuel a : Nat}
    (ha : p a = true) (h1 : start ≤ a) (h2 : a < start + fuel)
    (hmin : ∀ b, start ≤ b → b < a → p b = false) :
    findFirstIdx p start fuel = some a := by
  induction fuel generalizing start with
  | zero => omega
  | succ n ih =>
    rw [findFirstIdx]
    rcases Nat.eq_or_lt_of_le h1 with rfl | hlt
    · simp [ha]
    · have hps : p start = false := hmin start (Nat.le_refl _) hlt
      simp [hps]
      exact ih (by omega) (by omega) fun b hb1 hb2 => hmin b (by omega) hb2

theorem findFirstIdx_eq_none {p : Nat → Bool} {start fuel : Nat}
    (h : ∀ b, start ≤ b → b < start + fuel → p b = false) :
    findFirstIdx p start fuel = none := by
  induction fuel generalizing start with
  | zero => rfl
  | succ n ih =>
    rw [findFirstIdx]
    have hps : p start = false := h start (Nat.le_refl _) (by omega)
    simp [hps]
    exact ih fun b hb1 hb2 => h b (by omega) (by omega)

theorem and_one_shiftLeft_beq_zero (x i : Nat) :
    (x &&& (1 <<< i) == 0) = !x.testBit i := by
  rw [Nat.one_shiftLeft, Nat.and_two_pow]
  cases h : x.testBit i <;> simp [h, Nat.pow_eq_zero]

theorem scanBits_some {bw brp n bits : Nat} (h : scanBits bw brp n = some bits) :
    1 ≤ bits ∧ bits ≤ n ∧ (bits + 3) * (brp + 1) = bw := by
  induction n with
  | zero => simp [scanBits] at h
  | succ m ih =>
    rw [scanBits] at h
    by_cases hc : (m + 1 + 3) * (brp + 1) = bw
    · simp [hc] at h
      subst h
      exact ⟨by omega, Nat.le_refl _, hc⟩
    · simp [hc] at h
      obtain ⟨h1, h2, h3⟩ := ih h
      exact ⟨h1, by omega, h3⟩

theorem scanBits_eq_none {bw brp n : Nat}
    (h : ∀ q, 1 ≤ q → q ≤ n → (q + 3) * (brp + 1) ≠ bw) :
    scanBits bw brp n = none := by
  induction n with
  | zero => rfl
  | succ m ih =>
    rw [scanBits]
    have hc : ¬ (m + 1 + 3) * (brp + 1) = bw := h (m + 1) (by omega) (by omega)
    simp [hc]
    exact ih fun q h1 h2 => h q h1 (by omega)

theorem searchBrp_some {bw brp fuel b bits : Nat}
    (h : searchBrp bw brp fuel = some (some (b, bits))) :
    b < 65536 ∧ 1 ≤ bits ∧ bits ≤ 22 ∧ (bits + 3) * (b + 1) = bw := by
  induction fuel generalizing brp with
  | zero => simp [searchBrp] at h
  | succ n ih =>
    rw [searchBrp] at h
    by_cases hlt : brp < bw / 4
    · rw [if_pos hlt] at h
      rcases hscan : scanBits bw ((brp + 1) % 65536) 22 with _ | bits2 <;> rw [hscan] at h
      · exact ih h
      · simp at h
        obtain ⟨rfl, rfl⟩ := h
        obtain ⟨h1, h2, h3⟩ := scanBits_some hscan
        exact ⟨Nat.mod_lt _ (by omega), h1, h2, h3⟩
    · rw [if_neg hlt] at h
      simp at h

/-- When `bitwidth / 4` fits the 16-bit prescaler, no wrap occurs: under
a no-match hypothesis over the searched range the loop exits with
`hit == 0` before the fuel runs out. -/
theorem searchBrp_exits_no_match {bw : Nat} (hA : bw / 4 < 65536) :
    ∀ fuel brp, bw / 4 ≤ brp + fuel →
      (∀ b, brp < b → b ≤ bw / 4 → ∀ q, 1 ≤ q → q ≤ 22 → (q + 3) * (b + 1) ≠ bw) →
      searchBrp bw brp (fuel + 1) = some none := by
  intro fuel
  induction fuel with
  | zero =>
    intro brp hle _
    rw [searchBrp, if_neg (by omega)]
  | succ n ih =>
    intro brp hle h
    rw [searchBrp]
    by_cases hlt : brp < bw / 4
    · rw [if_pos hlt]
      have hmod : (brp + 1) % 65536 = brp + 1 := Nat.mod_eq_of_lt (by omega)
      have hscan : scanBits bw ((brp + 1) % 65536) 22 = none := by
        rw [hmod]
        exact scanBits_eq_none fun q h1 h2 => h (brp + 1) (by omega) (by omega) q h1 h2
      rw [hscan, hmod]
      exact ih (brp + 1) (by omega) fun b hb1 hb2 q h1 h2 => h b (by omega) hb2 q h1 h2
    · rw [if_neg hlt]

/-- When `bitwidth / 4` exceeds every 16-bit prescaler and no 16-bit
prescaler matches, the loop state cycles with no exit: the search
reports divergence. -/
theorem searchBrp_diverges {bw : Nat} (hB : 65536 ≤ bw / 4)
    (hnohit : ∀ b < 65536, ∀ q, 1 ≤ q → q ≤ 22 → (q + 3) * (b + 1) ≠ bw) :
    ∀ fuel brp, brp < 65536 → searchBrp bw brp fuel = none := by
  intro fuel
  induction fuel with
  | zero =>
    intro brp _
    rfl
  | succ n ih =>
    intro brp hb
    rw [searchBrp, if_pos (by omega)]
    have hb2 : (brp + 1) % 65536 < 65536 := Nat.mod_lt _ (by omega)
    have hscan : scanBits bw ((brp + 1) % 65536) 22 = none :=
      scanBits_eq_none fun q h1 h2 => hnohit _ hb2 q h1 h2
    rw [hscan]
    exact ih _ hb2

end CanApi

namespace CanApi

theorem shiftLeft_or_eq_add {a b i : Nat} (hb : b < 2 ^ i) :
    (a <<< i) ||| b = a * 2 ^ i + b := by
  rw [Nat.shiftLeft_eq, Nat.mul_comm, ← Nat.mul_add_lt_is_or hb, Nat.mul_comm]

theorem and_three_eq_mod (p : Nat) : p &&& 0x3 = p % 4 :=
  Nat.and_pow_two_sub_one_eq_mod p 2

theorem and_63_eq_mod (p : Nat) : p &&& 0x3F = p % 64 :=
  Nat.and_pow_two_sub_one_eq_mod p 6

/-- The packed bit-timing word as plain arithmetic. -/
theorem pack_eq_sum {t1 t2 : Nat} (p b : Nat) (h1 : t1 < 16) (h2 : t2 < 8) :
    (t2 <<< 12) ||| (t1 <<< 8) ||| ((p &&& 0x3) <<< 6) ||| (b &&& 0x3F) =
      t2 * 4096 + t1 * 256 + ((p % 4) * 64 + b % 64) := by
  have hx : (p % 4) * 64 + b % 64 < 2 ^ 8 := by
    have := Nat.mod_lt p (y := 4) (by omega)
    have := Nat.mod_lt b (y := 64) (by omega)
    omega
  have hcd : ((p &&& 0x3) <<< 6) ||| (b &&& 0x3F) = (p % 4) * 64 + b % 64 := by
    rw [and_three_eq_mod, and_63_eq_mod, shiftLeft_or_eq_add (by omega : b % 64 < 2 ^ 6)]
    norm_num
  have hmid : (t1 <<< 8) ||| (((p &&& 0x3) <<< 6) ||| (b &&& 0x3F)) =
      t1 * 256 + ((p % 4) * 64 + b % 64) := by
    rw [hcd, shiftLeft_or_eq_add hx]
    norm_num
  calc (t2 <<< 12) ||| (t1 <<< 8) ||| ((p &&& 0x3) <<< 6) ||| (b &&& 0x3F)
      = (t2 <<< 12) ||| ((t1 <<< 8) ||| (((p &&& 0x3) <<< 6) ||| (b &&& 0x3F))) := by
        rw [Nat.or_assoc, Nat.or_assoc]
    _ = t2 * 4096 + (t1 * 256 + ((p % 4) * 64 + b % 64)) := by
        rw [hmid]
        have : t1 * 256 + ((p % 4) * 64 + b % 64) < 2 ^ 12 := by omega
        rw [shiftLeft_or_eq_add this]
        norm_num
    _ = t2 * 4096 + t1 * 256 + ((p % 4) * 64 + b % 64) := by omega

theorem btrTseg1_eq_div_mod (w : Nat) : btrTseg1 w = w / 256 % 16 := by
  rw [btrTseg1, Nat.shiftRight_eq_div_pow]
  exact Nat.and_pow_two_sub_one_eq_mod _ 4

theorem btrTseg2_eq_div_mod (w : Nat) : btrTseg2 w = w / 4096 % 8 := by
  rw [btrTseg2, Nat.shiftRight_eq_div_pow]
  exact Nat.and_pow_two_sub_one_eq_mod _ 3

/-- Result shape of `can_speed` when the search hits. -/
theorem can_speed_eq_of_search {sclk cclk : Nat} (psjw : Nat) {brp bits : Nat}
    (hs : searchBrp (sclk / cclk) ((sclk / cclk / 0x18) % 65536) 65536 =
      some (some (brp, bits))) :
    can_speed sclk cclk psjw =
      some ((((timing_pts.getD bits (0, 0)).2 &&& 0x7) <<< 12) |||
        (((timing_pts.getD bits (0, 0)).1 &&& 0xF) <<< 8) |||
        ((psjw &&& 0x3) <<< 6) ||| (brp &&& 0x3F)) := by
  simp only [can_speed, hs]
  simp

/-- Result of `can_speed` when the search loop exits with no hit. -/
theorem can_speed_eq_zero_of_search {sclk cclk : Nat} (psjw : Nat)
    (hs : searchBrp (sclk / cclk) ((sclk / cclk / 0x18) % 65536) 65536 = some none) :
    can_speed sclk cclk psjw = some 0 := by
  simp only [can_speed, hs]

/-- Result of `can_speed` when the search loop never terminates. -/
theorem can_speed_eq_none_of_search {sclk cclk : Nat} (psjw : Nat)
    (hs : searchBrp (sclk / cclk) ((sclk / cclk / 0x18) % 65536) 65536 = none) :
    can_speed sclk cclk psjw = none := by
  simp only [can_speed, hs]

/-- Table entry bounds: every TSEG1 fits 4 bits and every TSEG2 fits
3 bits, and entry `i` sums to `i`. -/
theorem timing_pts_bounds :
    ∀ bits ≤ 22, (timing_pts.getD bits (0, 0)).1 < 16 ∧
      (timing_pts.getD bits (0, 0)).2 < 8 ∧
      (timing_pts.getD bits (0, 0)).1 + (timing_pts.getD bits (0, 0)).2 = bits := by
  decide

end CanApi

namespace CanApi

/-- C2: for the input (coreClockHz = 48000000, targetBitrateHz = 500000,
sjw = 1) the bit-timing solver `can_speed` returns the nonzero timing
word 0x3A45; and for every input on which it returns a nonzero word, the
word's TSEG1/TSEG2 fields are exactly the `timing_pts` table entry
indexed by the matched quanta count `bits` (the first field of the exact
match `(bits + 3) * (brp + 1) = coreClockHz / targetBitrateHz`, with
`brp` the stored 16-bit prescaler), and they decode to a total
bit-quantum count in [2, 24]. -/
theorem can_speed_returns_table_entry :
    (can_speed 48000000 500000 1 = some 0x3A45 ∧ (0x3A45 : Nat) ≠ 0) ∧
    ∀ sclk cclk psjw w, can_speed sclk cclk psjw = some w → w ≠ 0 →
      ∃ brp bits,
        searchBrp (sclk / cclk) ((sclk / cclk / 0x18) % 65536) 65536 =
          some (some (brp, bits)) ∧
        1 ≤ bits ∧ bits ≤ 22 ∧
        (bits + 3) * (brp + 1) = sclk / cclk ∧
        btrTseg1 w = (timing_pts.getD bits (0, 0)).1 ∧
        btrTseg2 w = (timing_pts.getD bits (0, 0)).2 ∧
        2 ≤ btrQuanta w ∧ btrQuanta w ≤ 24 := by
  constructor
  · exact ⟨by decide, by decide⟩
  · intro sclk cclk psjw w hw hne
    rcases hs : searchBrp (sclk / cclk) ((sclk / cclk / 0x18) % 65536) 65536 with
      _ | (_ | ⟨brp, bits⟩)
    · rw [can_speed_eq_none_of_search psjw hs] at hw
      exact Option.noConfusion hw
    · rw [can_speed_eq_zero_of_search psjw hs] at hw
      exact absurd (Option.some.inj hw).symm hne
    · obtain ⟨_, h1b, h22, hmul⟩ := searchBrp_some hs
      obtain ⟨ht1, ht2, _⟩ := timing_pts_bounds bits h22
      rw [can_speed_eq_of_search psjw hs] at hw
      obtain rfl := Option.some.inj hw
      have hweq : (((timing_pts.getD bits (0, 0)).2 &&& 0x7) <<< 12) |||
          (((timing_pts.getD bits (0, 0)).1 &&& 0xF) <<< 8) |||
          ((psjw &&& 0x3) <<< 6) ||| (brp &&& 0x3F) =
          (timing_pts.getD bits (0, 0)).2 * 4096 + (timing_pts.getD bits (0, 0)).1 * 256 +
            ((psjw % 4) * 64 + brp % 64) := by
        rw [Nat.and_pow_two_sub_one_of_lt_two_pow (n := 4) ht1,
            Nat.and_pow_two_sub_one_of_lt_two_pow (n := 3) ht2,
            pack_eq_sum psjw brp ht1 ht2]
      have hT1 : btrTseg1 ((((timing_pts.getD bits (0, 0)).2 &&& 0x7) <<< 12) |||
          (((timing_pts.getD bits (0, 0)).1 &&& 0xF) <<< 8) |||
          ((psjw &&& 0x3) <<< 6) ||| (brp &&& 0x3F)) = (timing_pts.getD bits (0, 0)).1 := by
        rw [hweq, btrTseg1_eq_div_mod]
        omega
      have hT2 : btrTseg2 ((((timing_pts.getD bits (0, 0)).2 &&& 0x7) <<< 12) |||
          (((timing_pts.getD bits (0, 0)).1 &&& 0xF) <<< 8) |||
          ((psjw &&& 0x3) <<< 6) ||| (brp &&& 0x3F)) = (timing_pts.getD bits (0, 0)).2 := by
        rw [hweq, btrTseg2_eq_div_mod]
        omega
      refine ⟨brp, bits, rfl, h1b, h22, hmul, hT1, hT2, ?_, ?_⟩ <;>
        simp only [btrQuanta, hT1, hT2] <;> omega

/-- Witness for C2 at the concrete input (48 MHz, 500 kbit/s, sjw 1),
whose returned word is 0x3A45. -/
theorem can_speed_returns_table_entry_witness :
    ∃ brp bits,
      searchBrp (48000000 / 500000) ((48000000 / 500000 / 0x18) % 65536) 65536 =
        some (some (brp, bits)) ∧
      1 ≤ bits ∧ bits ≤ 22 ∧
      (bits + 3) * (brp + 1) = 48000000 / 500000 ∧
      btrTseg1 0x3A45 = (timing_pts.getD bits (0, 0)).1 ∧
      btrTseg2 0x3A45 = (timing_pts.getD bits (0, 0)).2 ∧
      2 ≤ btrQuanta 0x3A45 ∧ btrQuanta 0x3A45 ≤ 24 :=
  can_speed_returns_table_entry.2 48000000 500000 1 0x3A45
    can_speed_returns_table_entry.1.1 (by decide)

/-- C3 counterexample: at coreClockHz = 262147 (bitwidth 262147, which
has no divisor in 4..25), targetBitrateHz = 1, sjw = 1 the claim's
no-match condition holds over the whole search range, yet the solver
does not return 0: `bitwidth / 4 = 65536` exceeds every 16-bit
prescaler value, so the C while-loop never exits — the program never
returns (modelled as `none`). -/
theorem can_speed_no_match_cex :
    (∀ b ≤ 262147 / 1 / 4, ∀ q ≤ 22, 262147 / 1 / 0x18 < b → 1 ≤ q →
      (q + 3) * (b + 1) ≠ 262147 / 1) ∧
    can_speed 262147 1 1 = none ∧ can_speed 262147 1 1 ≠ some 0 := by
  have hdvd : ∀ q ≤ 22, 1 ≤ q → ¬ (q + 3) ∣ 262147 := by decide
  have hnohit : ∀ b < 65536, ∀ q, 1 ≤ q → q ≤ 22 → (q + 3) * (b + 1) ≠ 262147 := by
    intro b _ q h1 h2 heq
    exact hdvd q h2 h1 ⟨b + 1, heq.symm⟩
  have hnone : searchBrp 262147 10922 65536 = none :=
    searchBrp_diverges (by norm_num) hnohit 65536 10922 (by norm_num)
  have hcs : can_speed 262147 1 1 = none := can_speed_eq_none_of_search 1 hnone
  refine ⟨?_, hcs, ?_⟩
  · intro b _ q h2 _ h1 heq
    exact hdvd q h2 h1 ⟨b + 1, heq.symm⟩
  · rw [hcs]
    exact fun h => Option.noConfusion h

/-- C3 amended: when no prescaler candidate in the search range and no
quanta count in 22..1 gives an exact match
`(quantaCount + 3) * (prescaler + 1) = coreClockHz / targetBitrateHz`,
then: if `bitwidth / 4` fits the 16-bit prescaler (so the loop's exit
condition is reachable), the solver returns 0 and `can_frequency`
returns 0 with the whole controller state — in particular CANCLKDIV,
CANBT, CANBRPE — left unchanged; if `bitwidth / 4` exceeds every 16-bit
prescaler value and no 16-bit prescaler matches, the solver's loop never
terminates, so neither `can_speed` nor `can_frequency` ever returns and
the registers are likewise never written. -/
theorem can_speed_no_match_keeps_timing (st : CanState) (sclk f : Nat) :
    ((sclk / f / 4 < 65536 →
      (∀ b ≤ sclk / f / 4, ∀ q ≤ 22, sclk / f / 0x18 < b → 1 ≤ q →
        (q + 3) * (b + 1) ≠ sclk / f) →
      can_speed sclk f 1 = some 0 ∧ can_frequency st sclk f = some (0, st))) ∧
    (65536 ≤ sclk / f / 4 →
      (∀ b < 65536, ∀ q, 1 ≤ q → q ≤ 22 → (q + 3) * (b + 1) ≠ sclk / f) →
      can_speed sclk f 1 = none ∧ can_frequency st sclk f = none) := by
  constructor
  · intro hA H
    have hmod : (sclk / f / 0x18) % 65536 = sclk / f / 0x18 :=
      Nat.mod_eq_of_lt
        (lt_of_le_of_lt (Nat.div_le_div_left (by norm_num) (by norm_num)) hA)
    have hsome : searchBrp (sclk / f) ((sclk / f / 0x18) % 65536) 65536 = some none := by
      rw [hmod]
      exact searchBrp_exits_no_match hA 65535 (sclk / f / 0x18) (by omega)
        fun b hb1 hb2 q h1 h2 => H b hb2 q h2 hb1 h1
    have h0 : can_speed sclk f 1 = some 0 := can_speed_eq_zero_of_search 1 hsome
    exact ⟨h0, by simp [can_frequency, h0]⟩
  · intro hB H
    have hnone : searchBrp (sclk / f) ((sclk / f / 0x18) % 65536) 65536 = none :=
      searchBrp_diverges hB H 65536 _ (Nat.mod_lt _ (by omega))
    have hn : can_speed sclk f 1 = none := can_speed_eq_none_of_search 1 hnone
    exact ⟨hn, by simp [can_frequency, hn]⟩

/-- Witness for the amended C3: 48 MHz cannot hit 7 Mbit/s exactly and
the solver returns 0 in the terminating region; bitwidth 262147 has no
match in the divergent region and never returns. -/
theorem can_speed_no_match_keeps_timing_witness :
    (can_speed 48000000 7000000 1 = some 0 ∧
      can_frequency canStZero 48000000 7000000 = some (0, canStZero)) ∧
    (can_speed 262147 1 1 = none ∧ can_frequency canStZero 262147 1 = none) := by
  constructor
  · exact (can_speed_no_match_keeps_timing canStZero 48000000 7000000).1 (by decide)
      (by decide)
  · refine (can_speed_no_match_keeps_timing canStZero 262147 1).2 (by decide) ?_
    intro b _ q h1 h2 heq
    exact (by decide : ∀ q ≤ 22, 1 ≤ q → ¬ (q + 3) ∣ 262147) q h2 h1 ⟨b + 1, heq.symm⟩

end CanApi

namespace CanApi

theorem can_enable_keeps_bitmaps (st : CanState) :
    (can_enable st).canmsgv1 = st.canmsgv1 ∧ (can_enable st).canmsgv2 = st.canmsgv2 ∧
    (can_enable st).cantxreq1 = st.cantxreq1 ∧ (can_enable st).cantxreq2 = st.cantxreq2 ∧
    (can_enable st).cannd1 = st.cannd1 ∧ (can_enable st).cannd2 = st.cannd2 := by
  unfold can_enable
  split <;> exact ⟨rfl, rfl, rfl, rfl, rfl, rfl⟩

/-- The return value of `can_filter` is the (possibly auto-allocated)
handle, whatever the range guard decides. -/
theorem can_filter_fst (st : CanState) (id mask : Nat) (fmt : CANFormat) (handle : Int) :
    (can_filter st id mask fmt handle).1 =
      if handle = 0 then
        match findFirstIdx
            (fun i => (st.canmsgv1 ||| (st.canmsgv2 <<< 16)) &&& (1 <<< i) == 0) 0 32 with
        | some i => (i : Int) + 1
        | none => 0
      else handle := by
  unfold can_filter
  by_cases h0 : handle = 0
  · simp only [h0, if_true]
    rcases hf : findFirstIdx
        (fun i => (st.canmsgv1 ||| (st.canmsgv2 <<< 16)) &&& (1 <<< i) == 0) 0 32 with _ | i <;>
      simp only [hf] <;> split <;> rfl
  · simp only [h0, if_false]
    split <;> rfl

end CanApi

namespace CanApi

/-- C4 counterexample: with every slot free, a supplied handle of 33
(outside [1,32]) makes `can_filter` return 33, not 0 as the claim
states. -/
theorem can_filter_large_handle_cex :
    (can_filter canStZero 0 0 CANFormat.CANStandard 33).1 = 33 ∧ (33 : Int) ≠ 0 := by
  constructor
  · rfl
  · decide

/-- C4 amended: with handle 0, `can_filter` returns the first slot not
marked valid in the aggregate 32-bit validity bitmap (lowest index + 1),
and returns 0 when all 32 slots are valid; but a supplied handle outside
[1,32] (negative or above 32) is returned unchanged, with the whole
controller state untouched — it is not mapped to 0. -/
theorem can_filter_amended (st : CanState) (id mask : Nat) (fmt : CANFormat) :
    (∀ handle : Int, handle < 0 ∨ 32 < handle →
      can_filter st id mask fmt handle = (handle, st)) ∧
    ((∀ i < 32, (st.canmsgv1 ||| (st.canmsgv2 <<< 16)).testBit i = true) →
      (can_filter st id mask fmt 0).1 = 0) ∧
    (∀ i < 32, (st.canmsgv1 ||| (st.canmsgv2 <<< 16)).testBit i = false →
      (∀ j < i, (st.canmsgv1 ||| (st.canmsgv2 <<< 16)).testBit j = true) →
      (can_filter st id mask fmt 0).1 = (i : Int) + 1) := by
  refine ⟨?_, ?_, ?_⟩
  · intro handle hout
    unfold can_filter
    rw [if_neg (by omega : ¬ handle = 0), if_neg (by omega : ¬ (0 < handle ∧ handle ≤ 32))]
  · intro hfull
    rw [can_filter_fst]
    have hnone : findFirstIdx
        (fun i => (st.canmsgv1 ||| (st.canmsgv2 <<< 16)) &&& (1 <<< i) == 0) 0 32 = none := by
      apply findFirstIdx_eq_none
      intro b _ hb
      rw [and_one_shiftLeft_beq_zero, hfull b (by omega)]
      rfl
    rw [if_pos rfl, hnone]
  · intro i hi hfree hmin
    rw [can_filter_fst]
    have hsome : findFirstIdx
        (fun k => (st.canmsgv1 ||| (st.canmsgv2 <<< 16)) &&& (1 <<< k) == 0) 0 32 = some i := by
      apply findFirstIdx_eq_some
      · rw [and_one_shiftLeft_beq_zero, hfree]
        rfl
      · omega
      · omega
      · intro b _ hb
        rw [and_one_shiftLeft_beq_zero, hmin b hb]
        rfl
    rw [if_pos rfl, hsome]

/-- Witness for the amended C4 at a concrete state: out-of-range handle
33 is returned unchanged, and auto-allocation on an empty bitmap picks
slot 1. -/
theorem can_filter_amended_witness :
    can_filter canStZero 0 0 CANFormat.CANStandard 33 = (33, canStZero) ∧
    (can_filter canStZero 0 0 CANFormat.CANStandard 0).1 = (0 : Int) + 1 := by
  constructor
  · exact (can_filter_amended canStZero 0 0 CANFormat.CANStandard).1 33 (by omega)
  · exact (can_filter_amended canStZero 0 0 CANFormat.CANStandard).2.2 0 (by decide)
      (by decide) (by omega)

end CanApi

namespace CanApi

theorem cmdreqWrite1_keeps (st : CanState) (n c : Nat) :
    (cmdreqWrite1 st n c).if1cmdreq = st.if1cmdreq ∧
    (cmdreqWrite1 st n c).if2cmdreq = st.if2cmdreq := by
  unfold cmdreqWrite1
  dsimp only
  split <;> split <;> exact ⟨rfl, rfl⟩

theorem cmdreqRead2_keeps (st : CanState) (n c : Nat) :
    (cmdreqRead2 st n c).if2cmdreq = st.if2cmdreq ∧
    (cmdreqRead2 st n c).if1cmdreq = st.if1cmdreq := by
  unfold cmdreqRead2
  dsimp only
  split <;> exact ⟨rfl, rfl⟩

/-- Shared allocator fact: with handle 0, `can_filter` returns the
lowest slot whose validity bit is clear. -/
theorem can_filter_auto_least (st : CanState) (id mask : Nat) (fmt : CANFormat)
    {i : Nat} (hi : i < 32)
    (hfree : (st.canmsgv1 ||| (st.canmsgv2 <<< 16)).testBit i = false)
    (hmin : ∀ j < i, (st.canmsgv1 ||| (st.canmsgv2 <<< 16)).testBit j = true) :
    (can_filter st id mask fmt 0).1 = (i : Int) + 1 := by
  rw [can_filter_fst]
  have hsome : findFirstIdx
      (fun k => (st.canmsgv1 ||| (st.canmsgv2 <<< 16)) &&& (1 <<< k) == 0) 0 32 = some i := by
    apply findFirstIdx_eq_some
    · rw [and_one_shiftLeft_beq_zero, hfree]
      rfl
    · omega
    · omega
    · intro b _ hb
      rw [and_one_shiftLeft_beq_zero, hmin b hb]
      rfl
  rw [if_pos rfl, hsome]

end CanApi

namespace CanApi

/-- TX-slot selection of `can_write`: the single TX slot 32 is chosen
exactly when its transmit-request bit is clear in
`(CANTXREQ1 & 0xFF) | (CANTXREQ2 << 16)`; otherwise `can_write`
fails with 0. -/
theorem can_write_tx_slot (st : CanState) (msg : CAN_Message) (cc : Int) :
    (((st.cantxreq1 &&& 0xFF) ||| (st.cantxreq2 <<< 16)).testBit 31 = false →
      (can_write st msg cc).1 = 1 ∧ (can_write st msg cc).2.if1cmdreq = 32) ∧
    (((st.cantxreq1 &&& 0xFF) ||| (st.cantxreq2 <<< 16)).testBit 31 = true →
      (can_write st msg cc).1 = 0) := by
  have e1 : (can_enable st).cantxreq1 = st.cantxreq1 := (can_enable_keeps_bitmaps st).2.2.1
  have e2 : (can_enable st).cantxreq2 = st.cantxreq2 := (can_enable_keeps_bitmaps st).2.2.2.1
  constructor
  · intro hfree
    simp only [can_write, RX_MSG_OBJ_COUNT, findFirstIdx, e1, e2,
      and_one_shiftLeft_beq_zero, hfree]
    rw [if_neg (by decide)]
    refine ⟨rfl, ?_⟩
    simp [(cmdreqWrite1_keeps _ _ _).1]
    decide
  · intro hbusy
    simp only [can_write, RX_MSG_OBJ_COUNT, findFirstIdx, e1, e2,
      and_one_shiftLeft_beq_zero, hbusy]
    rw [if_pos (by decide)]

/-- RX auto-allocation of `can_read`: with handle 0, the first RX slot
(1..31) flagged in the aggregate new-data bitmap is read back. -/
theorem can_read_auto_least (st : CanState) {i : Nat} (hi : i < 31)
    (hset : (st.cannd1 ||| (st.cannd2 <<< 16)).testBit i = true)
    (hmin : ∀ j < i, (st.cannd1 ||| (st.cannd2 <<< 16)).testBit j = false) :
    (can_read st 0).1 = 1 ∧ (can_read st 0).2.2.if2cmdreq = i + 1 := by
  have e1 : (can_enable st).cannd1 = st.cannd1 := (can_enable_keeps_bitmaps st).2.2.2.2.1
  have e2 : (can_enable st).cannd2 = st.cannd2 := (can_enable_keeps_bitmaps st).2.2.2.2.2
  have hf : findFirstIdx
      (fun k => !((st.cannd1 ||| (st.cannd2 <<< 16)) &&& (1 <<< k) == 0)) 0
        RX_MSG_OBJ_COUNT = some i := by
    apply findFirstIdx_eq_some
    · rw [and_one_shiftLeft_beq_zero, hset]
      rfl
    · omega
    · simp [RX_MSG_OBJ_COUNT]
      omega
    · intro b _ hb
      rw [and_one_shiftLeft_beq_zero, hmin b hb]
      rfl
  simp only [can_read, e1, e2, hf, if_true]
  rw [if_pos (⟨by omega, by omega⟩ : (0 : Int) < (i : Int) + 1 ∧ (i : Int) + 1 ≤ 32)]
  refine ⟨rfl, ?_⟩
  simp [(cmdreqRead2_keeps _ _ _).1, and_63_eq_mod]
  omega

/-- C7: auto-allocation always selects the lowest-numbered slot of its
pool: `can_filter` (handle 0) the lowest slot not marked valid among
1..32; `can_write` the lowest slot not pending transmit among the TX
slots (only slot 32 in this 32-slot model, failing with 0 when it is
pending); `can_read` (handle 0) the lowest slot flagged new-data among
the RX slots 1..31. -/
theorem auto_allocation_lowest (st : CanState) (id mask : Nat) (fmt : CANFormat)
    (msg : CAN_Message) (cc : Int) :
    (∀ i, i < 32 → (st.canmsgv1 ||| (st.canmsgv2 <<< 16)).testBit i = false →
      (∀ j < i, (st.canmsgv1 ||| (st.canmsgv2 <<< 16)).testBit j = true) →
      (can_filter st id mask fmt 0).1 = (i : Int) + 1) ∧
    ((((st.cantxreq1 &&& 0xFF) ||| (st.cantxreq2 <<< 16)).testBit 31 = false →
      (can_write st msg cc).1 = 1 ∧ (can_write st msg cc).2.if1cmdreq = 32) ∧
     (((st.cantxreq1 &&& 0xFF) ||| (st.cantxreq2 <<< 16)).testBit 31 = true →
      (can_write st msg cc).1 = 0)) ∧
    (∀ i, i < 31 → (st.cannd1 ||| (st.cannd2 <<< 16)).testBit i = true →
      (∀ j < i, (st.cannd1 ||| (st.cannd2 <<< 16)).testBit j = false) →
      (can_read st 0).1 = 1 ∧ (can_read st 0).2.2.if2cmdreq = i + 1) :=
  ⟨fun i hi hfree hmin => can_filter_auto_least st id mask fmt hi hfree hmin,
   can_write_tx_slot st msg cc,
   fun i hi hset hmin => can_read_auto_least st hi hset hmin⟩

/-- Witness for C7 at a state with slots 1-3 valid, slot 3 flagged
new-data, and an idle TX slot. -/
theorem auto_allocation_lowest_witness :
    (can_filter canStPools 0 0 CANFormat.CANStandard 0).1 = (3 : Int) + 1 ∧
    ((can_write canStPools msgZero 0).1 = 1 ∧
      (can_write canStPools msgZero 0).2.if1cmdreq = 32) ∧
    ((can_read canStPools 0).1 = 1 ∧ (can_read canStPools 0).2.2.if2cmdreq = 2 + 1) := by
  have h := auto_allocation_lowest canStPools 0 0 CANFormat.CANStandard msgZero 0
  exact ⟨h.1 3 (by decide) (by decide) (by decide),
         ⟨(h.2.1.1 (by decide)).1, (h.2.1.1 (by decide)).2⟩,
         h.2.2 2 (by decide) (by decide) (by decide)⟩

/-- C10: with an explicitly supplied handle in [1,32], `can_read`
performs the interface-2 readback and returns 1 unconditionally — for
every controller state, including states where that slot has no new
data pending (the new-data bitmap is consulted only for handle 0). -/
theorem can_read_explicit_handle_succeeds (st : CanState) (handle : Int)
    (h1 : 1 ≤ handle) (h2 : handle ≤ 32) :
    (can_read st handle).1 = 1 := by
  simp only [can_read]
  rw [if_neg (by omega : ¬ handle = 0)]
  rw [if_pos (⟨by omega, h2⟩ : (0 : Int) < handle ∧ handle ≤ 32)]

/-- Witness for C10: handle 5 succeeds on the all-zero state, whose
new-data bitmap is empty. -/
theorem can_read_explicit_handle_succeeds_witness :
    (can_read canStZero 5).1 = 1 :=
  can_read_explicit_handle_succeeds canStZero 5 (by decide) (by decide)

end CanApi
namespace CanApi

theorem and_one_shiftLeft_eq_zero (x i : Nat) :
    x &&& (1 <<< i) = 0 ↔ x.testBit i = false := by
  rw [Nat.one_shiftLeft, Nat.and_two_pow]
  cases h : x.testBit i <;> simp [h, Nat.pow_eq_zero]

theorem canstat_clear_both (a : Nat) :
    (a &&& not32 (1 <<< 4)) &&& not32 (1 <<< 3) = a &&& not32 ((1 <<< 4) ||| (1 <<< 3)) := by
  rw [Nat.and_assoc]
  congr 1

theorem canstat_clear_rx (a : Nat) (h3 : a &&& (1 <<< 3) = 0) :
    a &&& not32 (1 <<< 4) = a &&& not32 ((1 <<< 4) ||| (1 <<< 3)) := by
  have hb3 : a.testBit 3 = false := (and_one_shiftLeft_eq_zero a 3).mp h3
  apply Nat.eq_of_testBit_eq
  intro k
  simp only [not32, Nat.one_shiftLeft, Nat.testBit_and, Nat.testBit_xor,
    Nat.testBit_two_pow_sub_one, Nat.testBit_two_pow, Nat.testBit_or]
  rcases eq_or_ne k 3 with rfl | h3k
  · simp [hb3]
  · rcases eq_or_ne k 4 with rfl | h4k
    · simp
    · simp [Ne.symm h3k, Ne.symm h4k]

theorem canstat_clear_tx (a : Nat) (h4 : a &&& (1 <<< 4) = 0) :
    a &&& not32 (1 <<< 3) = a &&& not32 ((1 <<< 4) ||| (1 <<< 3)) := by
  have hb4 : a.testBit 4 = false := (and_one_shiftLeft_eq_zero a 4).mp h4
  apply Nat.eq_of_testBit_eq
  intro k
  simp only [not32, Nat.one_shiftLeft, Nat.testBit_and, Nat.testBit_xor,
    Nat.testBit_two_pow_sub_one, Nat.testBit_two_pow, Nat.testBit_or]
  rcases eq_or_ne k 3 with rfl | h3k
  · simp
  · rcases eq_or_ne k 4 with rfl | h4k
    · simp [hb4]
    · simp [Ne.symm h3k, Ne.symm h4k]

theorem canstat_clear_none (a : Nat) (h32 : a < 2 ^ 32)
    (h3 : a &&& (1 <<< 3) = 0) (h4 : a &&& (1 <<< 4) = 0) :
    a = a &&& not32 ((1 <<< 4) ||| (1 <<< 3)) := by
  have hb3 : a.testBit 3 = false := (and_one_shiftLeft_eq_zero a 3).mp h3
  have hb4 : a.testBit 4 = false := (and_one_shiftLeft_eq_zero a 4).mp h4
  apply Nat.eq_of_testBit_eq
  intro k
  simp only [not32, Nat.one_shiftLeft, Nat.testBit_and, Nat.testBit_xor,
    Nat.testBit_two_pow_sub_one, Nat.testBit_two_pow, Nat.testBit_or]
  rcases eq_or_ne k 3 with rfl | h3k
  · simp [hb3]
  · rcases eq_or_ne k 4 with rfl | h4k
    · simp [hb4]
    · by_cases hk : k < 32
      · simp [hk, Ne.symm h3k, Ne.symm h4k]
      · have hhi : a.testBit k = false :=
          Nat.testBit_lt_two_pow
            (lt_of_lt_of_le h32 (Nat.pow_le_pow_right (by norm_num) (le_of_not_lt hk)))
        simp [hk, hhi]

end CanApi

namespace CanApi

/-- C5 counterexample: with Bus-off, Error-passive and Receive-complete
simultaneously asserted but no error interrupt kinds enabled, the
dispatcher fires only the RX callback — not the three callbacks
(Bus-off, Error-passive, Receive-complete) the claim promises for every
asserted condition. -/
theorem can_irq_dispatch_cex :
    (can_irq 0x8000 0 canStC5).1 = [CanIrqType.IRQ_RX] ∧
    (can_irq 0x8000 0 canStC5).1 ≠
      [CanIrqType.IRQ_BUS, CanIrqType.IRQ_PASSIVE, CanIrqType.IRQ_RX] := by
  constructor <;> decide

/-- C5 amended: on a status interrupt (identifier 0x8000) one dispatch
invocation fires, in the fixed order Bus-off, Error-passive,
Error-warning, Receive-complete, Transmit-complete, one callback per
asserted condition — where the three error-condition callbacks fire only
if their interrupt kind is enabled, while the RX/TX completion callbacks
fire whenever asserted — and the dispatcher clears exactly the RX and TX
completion flags in the status register, never the error-condition
flags. -/
theorem can_irq_dispatch_amended (st : CanState) (enabled_irqs : Nat)
    (h32 : st.canstat < 2 ^ 32) :
    (can_irq 0x8000 enabled_irqs st).1 = firedKinds st.canstat enabled_irqs ∧
    (can_irq 0x8000 enabled_irqs st).2.canstat =
      st.canstat &&& not32 (CANSTAT_RXOK ||| CANSTAT_TXOK) := by
  have hid : (32768 : Nat) &&& 65535 = 32768 := by decide
  constructor
  · by_cases hB : st.canstat &&& CANSTAT_BOFF ≠ 0 ∧ enabled_irqs &&& IRQ_ENABLE_BE ≠ 0 <;>
    by_cases hP : st.canstat &&& CANSTAT_EPASS ≠ 0 ∧ enabled_irqs &&& IRQ_ENABLE_EP ≠ 0 <;>
    by_cases hW : st.canstat &&& CANSTAT_EWARN ≠ 0 ∧ enabled_irqs &&& IRQ_ENABLE_EW ≠ 0 <;>
    by_cases hR : st.canstat &&& CANSTAT_RXOK ≠ 0 <;>
    by_cases hT : st.canstat &&& CANSTAT_TXOK ≠ 0 <;>
    simp [can_irq, firedKinds, hid, hB, hP, hW, hR, hT, List.filter]
  · by_cases hR : st.canstat &&& CANSTAT_RXOK ≠ 0 <;>
    by_cases hT : st.canstat &&& CANSTAT_TXOK ≠ 0
    · simp [can_irq, hid, hR, hT]
      exact canstat_clear_both st.canstat
    · simp [can_irq, hid, hR, hT]
      exact canstat_clear_rx st.canstat (not_ne_iff.mp hT)
    · simp [can_irq, hid, hR, hT]
      exact canstat_clear_tx st.canstat (not_ne_iff.mp hR)
    · simp [can_irq, hid, hR, hT]
      exact canstat_clear_none st.canstat h32 (not_ne_iff.mp hT) (not_ne_iff.mp hR)

/-- Witness for the amended C5 at the Bus-off + Error-passive + RX
state with no kinds enabled. -/
theorem can_irq_dispatch_amended_witness :
    (can_irq 0x8000 0 canStC5).1 = firedKinds canStC5.canstat 0 ∧
    (can_irq 0x8000 0 canStC5).2.canstat =
      canStC5.canstat &&& not32 (CANSTAT_RXOK ||| CANSTAT_TXOK) :=
  can_irq_dispatch_amended canStC5 0 (by decide)

end CanApi

namespace CanApi

/-- Bit `k` of the 32-bit complement `not32 m`. -/
theorem testBit_not32 (m k : Nat) :
    (not32 m).testBit k = (decide (k < 32) ^^ m.testBit k) := by
  unfold not32
  rw [Nat.testBit_xor, Nat.testBit_two_pow_sub_one]

/-- A mask with no enabled kind has neither status nor error kinds. -/
theorem and_any_eq_zero {e : Nat} (h : e &&& IRQ_ENABLE_ANY = 0) :
    e &&& IRQ_ENABLE_STATUS = 0 ∧ e &&& IRQ_ENABLE_ERROR = 0 := by
  have hs : IRQ_ENABLE_STATUS = IRQ_ENABLE_ANY &&& IRQ_ENABLE_STATUS := by decide
  have he : IRQ_ENABLE_ERROR = IRQ_ENABLE_ANY &&& IRQ_ENABLE_ERROR := by decide
  constructor
  · rw [hs, ← Nat.and_assoc, h, Nat.zero_and]
  · rw [he, ← Nat.and_assoc, h, Nat.zero_and]

set_option maxHeartbeats 1000000 in
/-- C6: after every `can_irq_set` call, CANCNTL bit 1 (module interrupt
enable) is set iff at least one interrupt kind is enabled in the
resulting enable mask, bit 2 (status-change interrupt enable) is set iff
at least one of RX/TX is enabled, and bit 3 (error interrupt enable) is
set iff at least one of Bus-off / Error-passive / Error-warning is
enabled. -/
theorem can_irq_set_lines (ty : CanIrqType) (enable : Nat) (enabled_irqs : Nat)
    (st : CanState) :
    (((can_irq_set ty enable enabled_irqs st).2.cancntl.testBit 1 = true) ↔
      (can_irq_set ty enable enabled_irqs st).1 &&& IRQ_ENABLE_ANY ≠ 0) ∧
    (((can_irq_set ty enable enabled_irqs st).2.cancntl.testBit 2 = true) ↔
      (can_irq_set ty enable enabled_irqs st).1 &&& IRQ_ENABLE_STATUS ≠ 0) ∧
    (((can_irq_set ty enable enabled_irqs st).2.cancntl.testBit 3 = true) ↔
      (can_irq_set ty enable enabled_irqs st).1 &&& IRQ_ENABLE_ERROR ≠ 0) := by
  cases ty <;>
    (simp only [can_irq_set, can_disable, can_enable]
     split_ifs <;>
       (try simp_all [Nat.testBit_or, Nat.testBit_and, testBit_not32,
         (by decide : Nat.testBit 1 1 = false), (by decide : Nat.testBit 1 2 = false),
         (by decide : Nat.testBit 1 3 = false),
         (by decide : Nat.testBit 2 1 = true), (by decide : Nat.testBit 2 2 = false),
         (by decide : Nat.testBit 2 3 = false),
         (by decide : Nat.testBit 4 1 = false), (by decide : Nat.testBit 4 2 = true),
         (by decide : Nat.testBit 4 3 = false),
         (by decide : Nat.testBit 8 1 = false), (by decide : Nat.testBit 8 2 = false),
         (by decide : Nat.testBit 8 3 = true),
         (by decide : Nat.testBit 14 1 = true), (by decide : Nat.testBit 14 2 = true),
         (by decide : Nat.testBit 14 3 = true)]) <;>
       exact and_any_eq_zero (by assumption))


end CanApi

namespace RtcApi

/-- The reference date-time converts to POSIX time 946684800. -/
theorem maketime_origin :
    rtc_maketime_full (rtc_convert_datetime_hwrtc_to_tm DATETIME_HWRTC_ORIGIN) =
      some hwrtcOriginEpoch := by
  decide

/-- The recursive `rtc_write_impl(0)` call inside `rtc_init_impl` was
unrolled in the definition; this proves the unrolling faithful: after
`RTC_Open` the write's own enable check passes, so it reduces to the
write body. -/
theorem rtc_init_impl_unfold (st : RtcState) :
    rtc_init_impl st =
      (if (rtc_isenabled_impl st).1 ≠ 0 then (rtc_isenabled_impl st).2
       else rtc_write_impl 0 (RTC_Open (rtc_isenabled_impl st).2)) := by
  rcases st with ⟨ce, ia, sp, hw, oi, og, tw⟩
  by_cases hia : ia = true <;>
    simp [rtc_init_impl, rtc_write_impl, rtc_isenabled_impl, RTC_Open, rtc_write_body, hia]

/-- C1: for every `epochSeconds >= 0` and every starting state whose
cached origin (when already initialised) holds the reference epoch,
`rtc_write_impl epochSeconds` followed immediately by `rtc_read_impl`
(no intervening hardware clock drift: the date-time registers still hold
the reference date-time the write reset them to) returns
`epochSeconds`. -/
theorem rtc_write_then_read (st : RtcState) (t : Int) (ht : 0 ≤ t)
    (hinv : st.t_hwrtc_origin_inited = true → st.t_hwrtc_origin = hwrtcOriginEpoch) :
    (rtc_read_impl (rtc_write_impl t st)).1 = t := by
  rcases st with ⟨ce, ia, sp, hw, oi, og, tw⟩
  by_cases hoi : oi = true
  · have hog := hinv hoi
    simp only at hog
    by_cases hia : ia = true <;>
      simp [rtc_write_impl, rtc_read_impl, rtc_init_impl, rtc_isenabled_impl, RTC_Open,
        rtc_write_body, rtc_read_present, maketime_origin, hia, hoi, hog]
  · by_cases hia : ia = true <;>
      simp [rtc_write_impl, rtc_read_impl, rtc_init_impl, rtc_isenabled_impl, RTC_Open,
        rtc_write_body, rtc_read_present, maketime_origin, hia, hoi]

/-- Witness for C1: write 42 on a power-up state, read it back. -/
theorem rtc_write_then_read_witness :
    (0 : Int) ≤ 42 ∧ (rtc_read_impl (rtc_write_impl 42 rtcStFresh)).1 = 42 :=
  ⟨by decide, rtc_write_then_read rtcStFresh 42 (by decide) (by decide)⟩

/-- C8: whenever the calendar-to-epoch conversion rejects the hardware
date-time register state, `rtc_read_impl` returns 0 (for any starting
state whose cached origin, when initialised, holds the reference
epoch). -/
theorem rtc_read_rejected (st : RtcState)
    (hrej : rtc_maketime_full (rtc_convert_datetime_hwrtc_to_tm st.hwDateTime) = none)
    (hinv : st.t_hwrtc_origin_inited = true → st.t_hwrtc_origin = hwrtcOriginEpoch) :
    (rtc_read_impl st).1 = 0 := by
  rcases st with ⟨ce, ia, sp, hw, oi, og, tw⟩
  simp only at hrej
  by_cases hoi : oi = true
  · have hog := hinv hoi
    simp only at hog
    by_cases hia : ia = true <;>
      simp [rtc_read_impl, rtc_init_impl, rtc_isenabled_impl, RTC_Open,
        rtc_write_body, rtc_read_present, maketime_origin, hia, hoi, hog, hrej]
  · by_cases hia : ia = true <;>
      simp [rtc_read_impl, rtc_init_impl, rtc_isenabled_impl, RTC_Open,
        rtc_write_body, rtc_read_present, maketime_origin, hia, hoi, hrej]

/-- Witness for C8: an enabled state whose hardware registers hold
month 13 is rejected by the conversion and read returns 0. -/
theorem rtc_read_rejected_witness :
    rtc_maketime_full (rtc_convert_datetime_hwrtc_to_tm rtcStBad.hwDateTime) = none ∧
    (rtc_read_impl rtcStBad).1 = 0 :=
  ⟨by decide, rtc_read_rejected rtcStBad (by decide) (by decide)⟩

/-- C9: each secure-boundary entry point (`rtc_init_s`, `rtc_free_s`,
`rtc_isenabled_s`, `rtc_read_s`, `rtc_write_s`) produces exactly the
same result and state change as the corresponding internal
implementation, for every input and starting state — and the non-secure
HAL front ends likewise delegate to the secure entry points, adding no
logic. -/
theorem secure_entry_points_equal (st : RtcState) (t : Int) :
    rtc_init_s st = rtc_init_impl st ∧ rtc_free_s st = rtc_free_impl st ∧
    rtc_isenabled_s st = rtc_isenabled_impl st ∧ rtc_read_s st = rtc_read_impl st ∧
    rtc_write_s t st = rtc_write_impl t st ∧
    rtc_init st = rtc_init_s st ∧ rtc_free st = rtc_free_s st ∧
    rtc_isenabled st = rtc_isenabled_s st ∧ rtc_read st = rtc_read_s st ∧
    rtc_write t st = rtc_write_s t st :=
  ⟨rfl, rfl, rfl, rfl, rfl, rfl, rfl, rfl, rfl, rfl⟩

end RtcApi
